import Mathlib

/-!
Shallow embedding of pyedflib's `EdfWriter` (`pyedflib/edfwriter.py`):
the header/session state, the per-channel descriptor setters, the bulk
`writeSamples` multiplexer loop, and the `writeAnnotation` tick quantization.

Modelling choices:
* Python floats are modelled as exact rationals (`ℚ`), Python ints as
  `Int`/`Nat`, numpy 1-D arrays as `List Int` (`np.size`, `np.max(shape)` and
  `flatten()` all coincide with `List.length`/identity for 1-D input).
* The external `_pyedflib` codec is modelled by recording the values the
  writer would push to it: each call to `write_physical_samples` becomes a
  trace entry `(channel, buffer)`, and the header pushes for gender/birthdate
  become pure functions returning the pushed value.
* Python exceptions become explicit error values (`PyError`); a raise that
  happens before any mutation is modelled by returning the error without a
  new state.
* The `while notAtEnd` loop of `writeSamples` is embedded with explicit fuel;
  whenever every sample rate is positive the loop performs at most
  `(sum of input lengths)` rounds, so the canonical fuel
  `wsFuel data = sum of lengths + 1` never runs out in any situation the
  theorems below consider.  (With a zero sample rate and no short channel the
  Python loop itself diverges.)
-/

/-- Errors the writer can raise: the module's own exception classes
(`WrongInputSize`, `ChannelDoesNotExist`) plus the Python-level errors that
can escape (`IndexError` from a list access past the end, `ValueError` from a
numpy broadcast mismatch or from `strptime`). -/
inductive PyError where
  | wrongInputSize : Nat → PyError
  | channelDoesNotExist : Int → PyError
  | indexError : PyError
  | valueError : PyError
  | dateParseError : PyError
  deriving DecidableEq, Repr

/-- Value stored in `self.gender`: Python lets it be an int or any string. -/
inductive GenderVal where
  | int : Int → GenderVal
  | str : String → GenderVal
  deriving DecidableEq, Repr

/-- A `datetime.date`-like triple. -/
structure PyDate where
  year : Nat
  month : Nat
  day : Nat
  deriving DecidableEq, Repr

/-- Value stored in `self.birthdate`: a `date` or any string. -/
inductive BirthdateVal where
  | date : PyDate → BirthdateVal
  | str : String → BirthdateVal
  deriving DecidableEq, Repr

/-- One per-channel descriptor dict (`self.channels[i]`).  `sample_rate` is a
Python int used as a slice length / `np.zeros` size, hence modelled as `Nat`;
the physical extrema are Python floats, modelled as rationals. -/
structure ChannelInfo where
  label : String
  dimension : String
  sample_rate : Nat
  physical_max : ℚ
  physical_min : ℚ
  digital_max : Int
  digital_min : Int
  prefilter : String
  transducer : String
  deriving DecidableEq, Repr

/-- Session state of an `EdfWriter`.  The codec `handle` and the wall-clock
`recording_start_time` (set from `datetime.now()`) are not modelled: no claim
depends on them.  `sample_buffer` is kept because `__init__` fills it. -/
structure EdfWriterState where
  path : String
  file_type : Nat
  patient_name : String
  patient_code : String
  technician : String
  equipment : String
  recording_additional : String
  patient_additional : String
  admincode : String
  gender : GenderVal
  birthdate : BirthdateVal
  duration : ℚ
  n_channels : Nat
  channels : List ChannelInfo
  sample_buffer : List (List Int)
  deriving DecidableEq, Repr

/-- File-type constants from `edflib.h`, imported by the module. -/
def FILETYPE_EDF : Nat := 0

/-- EDF+ file-type constant. -/
def FILETYPE_EDFPLUS : Nat := 1

/-- BDF file-type constant. -/
def FILETYPE_BDF : Nat := 2

/-- BDF+ file-type constant. -/
def FILETYPE_BDFPLUS : Nat := 3

/-- The placeholder descriptor appended for each channel in `__init__`
(lines 121-131): the plus file types get the 24-bit digital extrema, every
other file type gets the 16-bit ones. -/
def defaultChannel (file_type : Nat) : ChannelInfo :=
  if file_type = FILETYPE_EDFPLUS ∨ file_type = FILETYPE_BDFPLUS then
    { label := "test_label", dimension := "mV", sample_rate := 100
      physical_max := 1, physical_min := -1
      digital_max := 8388607, digital_min := -8388608
      prefilter := "pre1", transducer := "trans1" }
  else
    { label := "test_label", dimension := "mV", sample_rate := 100
      physical_max := 1, physical_min := -1
      digital_max := 32767, digital_min := -32768
      prefilter := "pre1", transducer := "trans1" }

/-- `EdfWriter.__init__` (lines 82-134).  The loop appends one default
descriptor per channel; the `sample_buffer.append([])` sits in the non-plus
branch of the `if`, so only non-plus file types get per-channel buffers. -/
def EdfWriter_init (file_name : String) (n_channels : Nat) (file_type : Nat) :
    EdfWriterState :=
  { path := file_name
    file_type := file_type
    patient_name := ""
    patient_code := ""
    technician := ""
    equipment := ""
    recording_additional := ""
    patient_additional := ""
    admincode := ""
    gender := GenderVal.int 0
    birthdate := BirthdateVal.date ⟨1900, 1, 1⟩
    duration := 1
    n_channels := n_channels
    channels := List.replicate n_channels (defaultChannel file_type)
    sample_buffer :=
      if file_type = FILETYPE_EDFPLUS ∨ file_type = FILETYPE_BDFPLUS then []
      else List.replicate n_channels [] }

/-- `EdfWriter.setPatientAdditional` (lines 276-283).  Faithful to the source:
line 282 assigns `self.technician = patient_additional`. -/
def setPatientAdditional (st : EdfWriterState) (patient_additional : String) :
    EdfWriterState :=
  { st with technician := patient_additional }

/-- `EdfWriter.setGender` (lines 315-327): stores the argument unconditionally
(`self.gender = gender`) and then calls `update_header`. -/
def setGender (st : EdfWriterState) (gender : GenderVal) : EdfWriterState :=
  { st with gender := gender }

/-- `EdfWriter.setBirthdate` (lines 356-365): stores the argument and then
calls `update_header` (which is where a malformed string raises). -/
def setBirthdate (st : EdfWriterState) (birthdate : BirthdateVal) :
    EdfWriterState :=
  { st with birthdate := birthdate }

/-- Gender push of `update_header` (lines 147-152): the integer handed to the
codec's `set_gender`, or `none` when the `if/elif` chain falls through and no
push happens (an int is pushed as-is; the strings Male/Female map to 0/1). -/
def update_header_gender : GenderVal → Option Int
  | GenderVal.int n => some n
  | GenderVal.str s =>
      if s = "Male" then some 0
      else if s = "Female" then some 1
      else none

/-- Splits a character list on single spaces, like Python `s.split(" ")`. -/
def splitOnSpace : List Char → List (List Char)
  | [] => [[]]
  | c :: rest =>
    let r := splitOnSpace rest
    if c = ' ' then [] :: r
    else
      match r with
      | [] => [[c]]
      | w :: ws => (c :: w) :: ws

/-- Reads a nonempty all-digit character list as a `Nat`. -/
def digitsToNatAux : List Char → Nat → Option Nat
  | [], acc => some acc
  | c :: rest, acc =>
      if c.isDigit then digitsToNatAux rest (acc * 10 + (c.toNat - 48))
      else none

/-- Reads a nonempty all-digit character list as a `Nat` (`none` on `[]` or a
non-digit). -/
def digitsToNat : List Char → Option Nat
  | [] => none
  | c :: rest => digitsToNatAux (c :: rest) 0

/-- C-locale month abbreviations used by `%b`. -/
def monthAbbrev : List String :=
  ["Jan", "Feb", "Mar", "Apr", "May", "Jun",
   "Jul", "Aug", "Sep", "Oct", "Nov", "Dec"]

/-- One-based month number of a `%b` abbreviation. -/
def monthIndex (w : String) : Option Nat :=
  let i := monthAbbrev.indexOf w
  if i < monthAbbrev.length then some (i + 1) else none

/-- Model of the Python standard library call
`datetime.strptime(s, "%d %b %Y").date()` used at line 162 (the parser itself
is stdlib code, not part of this repository): a day field of digits, a
C-locale month abbreviation and a year field of digits, separated by single
spaces; `none` models the `ValueError` Python raises on malformed input.
Calendar day validation is simplified to the range 1..31. -/
def strptime_dbY (s : String) : Option PyDate :=
  match splitOnSpace s.toList with
  | [ds, ms, ys] =>
    match digitsToNat ds, monthIndex (String.mk ms), digitsToNat ys with
    | some d, some m, some y =>
        if 1 ≤ d ∧ d ≤ 31 then some ⟨y, m, d⟩ else none
    | _, _, _ => none
  | _ => none

/-- Birthdate push of `update_header` (lines 158-165): the `(y, m, d)` date
handed to the codec's `set_birthdate`, or the `ValueError` raised by
`strptime` on a malformed string. -/
def update_header_birthdate : BirthdateVal → Except PyError PyDate
  | BirthdateVal.str s =>
      if s = "" then Except.ok ⟨1900, 1, 1⟩
      else
        match strptime_dbY s with
        | some d => Except.ok d
        | none => Except.error PyError.dateParseError
  | BirthdateVal.date d => Except.ok d

/-- `EdfWriter.setSamplefrequency` (lines 367-376): the bounds guard raises
`ChannelDoesNotExist` only for `edfsignal < 0` or `edfsignal > n_channels`;
an index that passes the guard but is not a valid position of the channel
list (i.e. `edfsignal = n_channels`) raises `IndexError` from
`self.channels[edfsignal]`. -/
def setSamplefrequency (st : EdfWriterState) (edfsignal : Int)
    (samplefrequency : Nat) : Except PyError EdfWriterState :=
  if edfsignal < 0 ∨ (st.n_channels : Int) < edfsignal then
    Except.error (PyError.channelDoesNotExist edfsignal)
  else if h : edfsignal.toNat < st.channels.length then
    let old := st.channels.get ⟨edfsignal.toNat, h⟩
    let newChannels := st.channels.set edfsignal.toNat
      { old with sample_rate := samplefrequency }
    Except.ok { st with channels := newChannels }
  else
    Except.error PyError.indexError

/-- `EdfWriter.setSignalHeader` (lines 193-211): same guard as
`setSamplefrequency`, then `self.channels[edfsignal] = channel_info`. -/
def setSignalHeader (st : EdfWriterState) (edfsignal : Int)
    (channel_info : ChannelInfo) : Except PyError EdfWriterState :=
  if edfsignal < 0 ∨ (st.n_channels : Int) < edfsignal then
    Except.error (PyError.channelDoesNotExist edfsignal)
  else if edfsignal.toNat < st.channels.length then
    Except.ok { st with channels := st.channels.set edfsignal.toNat channel_info }
  else
    Except.error PyError.indexError

/-- numpy `np.round` on a scalar, on exact rationals: round half to even. -/
def np_round (q : ℚ) : ℤ :=
  if q - ⌊q⌋ < 1 / 2 then ⌊q⌋
  else if 1 / 2 < q - ⌊q⌋ then ⌊q⌋ + 1
  else if ⌊q⌋ % 2 = 0 then ⌊q⌋ else ⌊q⌋ + 1

/-- Which text encoding `writeAnnotation` selects for the description. -/
inductive AnnEnc where
  | utf8
  | latin1
  deriving DecidableEq, Repr

/-- The arguments `writeAnnotation` passes to the codec's annotation write:
onset and duration in integer 100-microsecond ticks plus the chosen text
encoding. -/
structure AnnCall where
  onset_ticks : ℤ
  duration_ticks : ℤ
  enc : AnnEnc
  deriving DecidableEq, Repr

/-- `EdfWriter.writeAnnotation` (lines 554-567): both encoding branches
quantize onset as `np.round(onset * 10000)`; a nonnegative duration is
quantized the same way, a negative one is encoded as the sentinel `-1`. -/
def annTicks (onset_in_seconds duration_in_seconds : ℚ)
    (str_format : String) : AnnCall :=
  if str_format = "utf-8" then
    if 0 ≤ duration_in_seconds then
      ⟨np_round (onset_in_seconds * 10000),
       np_round (duration_in_seconds * 10000), AnnEnc.utf8⟩
    else
      ⟨np_round (onset_in_seconds * 10000), -1, AnnEnc.utf8⟩
  else
    if 0 ≤ duration_in_seconds then
      ⟨np_round (onset_in_seconds * 10000),
       np_round (duration_in_seconds * 10000), AnnEnc.latin1⟩
    else
      ⟨np_round (onset_in_seconds * 10000), -1, AnnEnc.latin1⟩

/-- The `notAtEnd` recomputation of `writeSamples` (lines 534-536 and
543-545): true iff no channel has fewer than `sample_rate[i]` samples left
past its cursor. -/
def canRound (rates : List Nat) (data : List (List Int)) (ind : List Nat) :
    Bool :=
  (List.range data.length).all fun i =>
    ind.getD i 0 + rates.getD i 0 ≤ (data.getD i []).length

/-- One full round of the `while` loop (lines 539-541): in channel order, the
slice `data[i][ind[i] : ind[i] + sample_rate[i]]` passed to
`write_physical_samples`, tagged with its channel. -/
def roundWrites (rates : List Nat) (data : List (List Int)) (ind : List Nat) :
    List (Nat × List Int) :=
  (List.range data.length).map fun i =>
    (i, ((data.getD i []).drop (ind.getD i 0)).take (rates.getD i 0))

/-- The `while notAtEnd` loop of `writeSamples` (lines 538-545), with explicit
fuel: as long as `canRound` holds, emit one round of writes and advance every
cursor by its own sample rate.  Returns the emitted trace and the final
cursors. -/
def roundLoop (rates : List Nat) (data : List (List Int)) :
    Nat → List Nat → List (Nat × List Int) × List Nat
  | 0, ind => ([], ind)
  | fuel + 1, ind =>
    if canRound rates data ind then
      let step := roundLoop rates data fuel (List.zipWith (· + ·) ind rates)
      (roundWrites rates data ind ++ step.1, step.2)
    else ([], ind)

/-- The final-record loop of `writeSamples` (lines 547-552), over the list of
channel indices: `lastSamples = np.zeros(rate)`;
`lastSampleInd = len(data[i]) - ind[i]`; if positive, the assignment
`lastSamples[:lastSampleInd] = data[i][-lastSampleInd:]` fills the front of
the zero record — raising numpy's broadcast `ValueError` when
`lastSampleInd` exceeds the record length `rate` — and the record is written;
otherwise nothing is written for this channel. -/
def lastRecordsLoop (rates : List Nat) (data : List (List Int))
    (ind : List Nat) : List Nat → List (Nat × List Int) × Option PyError
  | [] => ([], none)
  | i :: rest =>
    let rate := rates.getD i 0
    let d := data.getD i []
    let lastSampleInd : Int := (d.length : Int) - (ind.getD i 0 : Int)
    if 0 < lastSampleInd then
      if lastSampleInd ≤ (rate : Int) then
        let k := lastSampleInd.toNat
        let record := d.drop (d.length - k) ++ List.replicate (rate - k) (0 : Int)
        let step := lastRecordsLoop rates data ind rest
        ((i, record) :: step.1, step.2)
      else ([], some PyError.valueError)
    else lastRecordsLoop rates data ind rest

/-- Canonical fuel for the `writeSamples` loop: one more than the total input
length.  When every sample rate is positive the loop performs at most
`min_i len_i / rate_i ≤ sum of lengths` rounds, so this fuel never runs out. -/
def wsFuel (data : List (List Int)) : Nat :=
  (data.map List.length).sum + 1

/-- `EdfWriter.writeSamples` (lines 512-552), where `rates` is the
`sample_rate` column of `self.channels`: the guard of line 526 rejects a
sequence count different from the channel count before any write; the round
loop and the final-record loop then emit the trace of
`write_physical_samples` calls.  Result: the trace of `(channel, buffer)`
writes in order, and the error raised (if any). -/
def writeSamples (rates : List Nat) (data : List (List Int)) :
    List (Nat × List Int) × Option PyError :=
  if data.length ≠ rates.length then
    ([], some (PyError.wrongInputSize data.length))
  else
    let loop := roundLoop rates data (wsFuel data)
      (List.replicate data.length 0)
    let fin := lastRecordsLoop rates data loop.2 (List.range data.length)
    (loop.1 ++ fin.1, fin.2)

/-- Expected trace of rounds `k, k+1, ..., k+n-1` of the round-robin phase,
written from the spec's wording: round `j` emits, in channel order, the slice
of channel `i` of length `sample_rate[i]` starting at cursor
`j * sample_rate[i]`. -/
def specRoundTraceFrom (rates : List Nat) (data : List (List Int))
    (k n : Nat) : List (Nat × List Int) :=
  (List.range' k n).flatMap fun j =>
    (List.range data.length).map fun i =>
      (i, ((data.getD i []).drop (rates.getD i 0 * j)).take (rates.getD i 0))

/-- Expected trace of the complete round-robin phase of `K` rounds. -/
def specRoundTrace (rates : List Nat) (data : List (List Int)) (K : Nat) :
    List (Nat × List Int) :=
  specRoundTraceFrom rates data 0 K

/-- Remainder of channel `i` after `K` rounds: the number of its samples past
the cursor `rate_i * K`. -/
def specRemainder (rates : List Nat) (data : List (List Int)) (K i : Nat) : Nat :=
  (data.getD i []).length - rates.getD i 0 * K

/-- The channels the final-record phase reaches after `K` rounds: it visits
channels in order and aborts at the first channel whose remainder exceeds its
rate (the numpy broadcast error), so exactly the longest prefix of channels
with `remainder ≤ rate` is processed. -/
def specFinalReached (rates : List Nat) (data : List (List Int)) (K : Nat) :
    List Nat :=
  (List.range data.length).takeWhile fun i =>
    specRemainder rates data K i ≤ rates.getD i 0

/-- Expected trace of the final-record phase after `K` rounds, as the code
behaves: among the reached channels, one with remainder `r > 0` emits its
remaining samples zero-padded on the right to length `rate_i`, and one with
zero remainder emits nothing. -/
def specFinalTrace (rates : List Nat) (data : List (List Int)) (K : Nat) :
    List (Nat × List Int) :=
  (specFinalReached rates data K).filterMap fun i =>
    if specRemainder rates data K i = 0 then none
    else some (i, (data.getD i []).drop (rates.getD i 0 * K)
      ++ List.replicate (rates.getD i 0 - specRemainder rates data K i) (0 : Int))

/-- Expected outcome of the final-record phase after `K` rounds: the numpy
broadcast `ValueError` exactly when some channel's remainder exceeds its
rate, `none` otherwise. -/
def specFinalOutcome (rates : List Nat) (data : List (List Int)) (K : Nat) :
    Option PyError :=
  if ((List.range data.length).dropWhile fun i =>
      specRemainder rates data K i ≤ rates.getD i 0) = []
  then none
  else some PyError.valueError

/-! Helper lemmas about the loop embedding. -/

/-- Reading the cursor list `rates.map (r ↦ r * k)` at any position gives
`rates.getD i 0 * k` (also out of range, where both sides are `0`). -/
theorem getD_map_mul (l : List Nat) (k : Nat) :
    ∀ i, (l.map fun r => r * k).getD i 0 = l.getD i 0 * k := by
  induction l with
  | nil => intro i; simp
  | cons a t ih =>
    intro i
    cases i with
    | zero => simp
    | succ j => simpa using ih j

/-- Advancing the cursors of round `k` by one rate each yields the cursors of
round `k + 1`. -/
theorem zipWith_add_map_mul (l : List Nat) (k : Nat) :
    List.zipWith (· + ·) (l.map fun r => r * k) l = l.map fun r => r * (k + 1) := by
  induction l with
  | nil => rfl
  | cons a t ih => simp [ih, Nat.mul_succ]

/-- The all-zero initial cursors are the cursors of round `0`. -/
theorem replicate_zero_eq_map_mul (l : List Nat) :
    List.replicate l.length 0 = l.map fun r => r * 0 := by
  simp

/-- Unfolding of the `notAtEnd` recomputation. -/
theorem canRound_eq_true_iff (rates : List Nat) (data : List (List Int))
    (ind : List Nat) :
    canRound rates data ind = true ↔
      ∀ i < data.length,
        ind.getD i 0 + rates.getD i 0 ≤ (data.getD i []).length := by
  simp [canRound, List.all_eq_true, List.mem_range]

/-- One round of writes taken at the cursors of round `k`. -/
theorem roundWrites_at (rates : List Nat) (data : List (List Int)) (k : Nat) :
    roundWrites rates data (rates.map fun r => r * k)
      = (List.range data.length).map fun i =>
          (i, ((data.getD i []).drop (rates.getD i 0 * k)).take (rates.getD i 0)) := by
  unfold roundWrites
  exact List.map_congr_left fun i _ => by rw [getD_map_mul]

/-! Claim theorems for the header-state and annotation components. -/

/-- C3 (code behavior at the boundary): the guard `edfsignal < 0 or
edfsignal > n_channels` lets the index `n_channels` through, so with 2
channels the call with index 2 fails with `IndexError` from the channel-list
access, not with `ChannelDoesNotExist`; indices `-1` and `3` do raise
`ChannelDoesNotExist`.  All failures happen before any mutation. -/
theorem setter_boundary_bug :
    setSamplefrequency (EdfWriter_init "f" 2 FILETYPE_EDFPLUS) 2 50
      = Except.error PyError.indexError
    ∧ setSignalHeader (EdfWriter_init "f" 2 FILETYPE_EDFPLUS) 2
        (defaultChannel FILETYPE_EDF)
      = Except.error PyError.indexError
    ∧ setSamplefrequency (EdfWriter_init "f" 2 FILETYPE_EDFPLUS) 3 50
      = Except.error (PyError.channelDoesNotExist 3)
    ∧ setSamplefrequency (EdfWriter_init "f" 2 FILETYPE_EDFPLUS) (-1) 50
      = Except.error (PyError.channelDoesNotExist (-1)) :=
  ⟨rfl, rfl, rfl, rfl⟩

/-- C4: a bulk write whose sequence count differs from the channel count
fails with `WrongInputSize` carrying the supplied count, and emits no
single-channel write at all. -/
theorem writeSamples_wrongInputSize (rates : List Nat) (data : List (List Int))
    (h : data.length ≠ rates.length) :
    writeSamples rates data = ([], some (PyError.wrongInputSize data.length)) := by
  simp [writeSamples, h]

/-- C4 witness: two sequences against three configured channels. -/
theorem writeSamples_wrongInputSize_witness :
    writeSamples [2, 2, 2] [[1], [2]] = ([], some (PyError.wrongInputSize 2)) :=
  writeSamples_wrongInputSize [2, 2, 2] [[1], [2]] (by decide)

/-- C6 (code behavior): `setPatientAdditional` assigns its argument to the
`technician` field (line 282) and leaves `patient_additional` untouched. -/
theorem setPatientAdditional_sets_technician :
    (setPatientAdditional (EdfWriter_init "f" 1 FILETYPE_EDFPLUS) "extra info").technician
      = "extra info"
    ∧ (setPatientAdditional (EdfWriter_init "f" 1 FILETYPE_EDFPLUS) "extra info").patient_additional
      = ""
    ∧ (EdfWriter_init "f" 1 FILETYPE_EDFPLUS).technician = ""
    ∧ (EdfWriter_init "f" 1 FILETYPE_EDFPLUS).patient_additional = "" :=
  ⟨rfl, rfl, rfl, rfl⟩

/-- C7 counterexample: a session constructed with the EDF-family kind EDF+
gets the 24-bit placeholder `digital_max = 8388607`, outside the 16-bit
signed range the claim asserts for EDF-family sessions. -/
theorem init_edfplus_digital_cex :
    ((EdfWriter_init "f" 1 FILETYPE_EDFPLUS).channels.getD 0
        (defaultChannel FILETYPE_EDF)).digital_max = 8388607
    ∧ ¬ ((EdfWriter_init "f" 1 FILETYPE_EDFPLUS).channels.getD 0
        (defaultChannel FILETYPE_EDF)).digital_max < 2 ^ 15 := by
  refine ⟨rfl, ?_⟩
  decide

/-- C7 amended: the placeholder digital extrema branch on plus-ness of the
file type, not on the EDF/BDF family: the plus kinds (EDF+ and BDF+) get the
24-bit signed extrema, every other kind the 16-bit signed extrema, and in all
cases `digital_min < digital_max`. -/
theorem init_default_digital_ranges (file_name : String) (n file_type : Nat)
    (ch : ChannelInfo)
    (hch : ch ∈ (EdfWriter_init file_name n file_type).channels) :
    ((file_type = FILETYPE_EDFPLUS ∨ file_type = FILETYPE_BDFPLUS →
        ch.digital_min = -(2 ^ 23) ∧ ch.digital_max = 2 ^ 23 - 1)
     ∧ (¬(file_type = FILETYPE_EDFPLUS ∨ file_type = FILETYPE_BDFPLUS) →
        ch.digital_min = -(2 ^ 15) ∧ ch.digital_max = 2 ^ 15 - 1)
     ∧ ch.digital_min < ch.digital_max) := by
  have hch2 : ch = defaultChannel file_type :=
    List.eq_of_mem_replicate hch
  subst hch2
  by_cases h : file_type = FILETYPE_EDFPLUS ∨ file_type = FILETYPE_BDFPLUS
  · refine ⟨fun _ => ?_, fun hc => absurd h hc, ?_⟩ <;> simp [defaultChannel, h]
  · refine ⟨fun hc => absurd hc h, fun _ => ?_, ?_⟩ <;> simp [defaultChannel, h]

/-- C7 witness: a BDF (non-plus) session's placeholder channel. -/
theorem init_default_digital_ranges_witness :
    (defaultChannel FILETYPE_BDF).digital_min < (defaultChannel FILETYPE_BDF).digital_max := by
  refine (init_default_digital_ranges "f" 1 FILETYPE_BDF _ ?_).2.2
  exact List.mem_replicate.mpr ⟨Nat.one_ne_zero, rfl⟩

/-- C8 counterexample: `setGender` with the unrecognized string Other does
mutate the session's gender field (it stores the string), even though no
gender value is pushed to the codec. -/
theorem setGender_mutation_cex :
    (setGender (EdfWriter_init "f" 1 FILETYPE_EDFPLUS) (GenderVal.str "Other")).gender
      = GenderVal.str "Other"
    ∧ (EdfWriter_init "f" 1 FILETYPE_EDFPLUS).gender = GenderVal.int 0
    ∧ GenderVal.str "Other" ≠ GenderVal.int 0
    ∧ update_header_gender (GenderVal.str "Other") = none := by
  refine ⟨rfl, rfl, ?_, rfl⟩
  decide

/-- C8 amended: `setGender` stores any argument into the session state
unconditionally; the `update_header` push sends an int code as-is, maps
Male/Female to 0/1, and silently pushes nothing (with no error) for any
other string. -/
theorem setGender_behavior (st : EdfWriterState) (g : GenderVal) (n : Int)
    (s : String) :
    (setGender st g).gender = g
    ∧ update_header_gender (GenderVal.int n) = some n
    ∧ update_header_gender (GenderVal.str "Male") = some 0
    ∧ update_header_gender (GenderVal.str "Female") = some 1
    ∧ (s ≠ "Male" → s ≠ "Female" →
        update_header_gender (GenderVal.str s) = none) := by
  refine ⟨rfl, rfl, rfl, rfl, ?_⟩
  intro h1 h2
  simp [update_header_gender, h1, h2]

/-- C8 witness: the unrecognized string X is silently dropped by the push. -/
theorem setGender_behavior_witness :
    update_header_gender (GenderVal.str "X") = none :=
  (setGender_behavior (EdfWriter_init "f" 1 FILETYPE_EDFPLUS)
    (GenderVal.int 0) 0 "X").2.2.2.2 (by decide) (by decide)

/-- C9: the birthdate push accepts a date value as-is; an empty string maps
to 1900-01-01; a well-formed day-monthabbrev-year string parses to that date;
a malformed string fails with the parse error. -/
theorem update_header_birthdate_spec :
    update_header_birthdate (BirthdateVal.str "") = Except.ok ⟨1900, 1, 1⟩
    ∧ update_header_birthdate (BirthdateVal.str "12 Mar 1975")
      = Except.ok ⟨1975, 3, 12⟩
    ∧ (∀ d, update_header_birthdate (BirthdateVal.date d) = Except.ok d)
    ∧ (∀ s, strptime_dbY s = none → s ≠ "" →
        update_header_birthdate (BirthdateVal.str s)
          = Except.error PyError.dateParseError)
    ∧ update_header_birthdate (BirthdateVal.str "hello")
      = Except.error PyError.dateParseError := by
  refine ⟨rfl, rfl, fun d => rfl, ?_, rfl⟩
  intro s hs hne
  simp [update_header_birthdate, hne, hs]

/-- C9 witness: the malformed string zzz fails with the parse error. -/
theorem update_header_birthdate_spec_witness :
    update_header_birthdate (BirthdateVal.str "zzz")
      = Except.error PyError.dateParseError :=
  update_header_birthdate_spec.2.2.2.1 "zzz" (by rfl) (by decide)

/-- C1 counterexample: rates `[2, 2]`, inputs `[1,2,3,4]` and `[5,6]`.  The
round-robin loop stops after one round; channel 0 (remainder 2) gets a final
record but channel 1 (remainder 0) gets none, so channel 0 receives 2 records
and channel 1 only 1 — the claimed all-zero final record is not emitted and
the channels do not receive the same total record count. -/
theorem writeSamples_missing_final_record_cex :
    writeSamples [2, 2] [[1, 2, 3, 4], [5, 6]]
      = ([(0, [1, 2]), (1, [5, 6]), (0, [3, 4])], none)
    ∧ List.countP (fun e => e.1 == 1) (writeSamples [2, 2] [[1, 2, 3, 4], [5, 6]]).1 = 1
    ∧ List.countP (fun e => e.1 == 0) (writeSamples [2, 2] [[1, 2, 3, 4], [5, 6]]).1 = 2 := by
  decide

/-- Main characterization of the round-robin `while` loop: if `K` rounds fit
(every channel holds `rate_i * K` samples) and round `K + 1` does not fit for
some channel, then starting at the cursors of round `k ≤ K` with at least
`K - k` fuel the loop emits exactly rounds `k, ..., K - 1` and stops with the
cursors of round `K`. -/
theorem roundLoop_spec (rates : List Nat) (data : List (List Int)) (K : Nat)
    (hK1 : ∀ i < data.length, rates.getD i 0 * K ≤ (data.getD i []).length)
    (hK2 : ∃ i, i < data.length ∧
      (data.getD i []).length < rates.getD i 0 * (K + 1)) :
    ∀ fuel k, k ≤ K → K - k ≤ fuel →
      roundLoop rates data fuel (rates.map fun r => r * k)
        = (specRoundTraceFrom rates data k (K - k), rates.map fun r => r * K) := by
  intro fuel
  induction fuel with
  | zero =>
    intro k hk hfuel
    have hkK : k = K := by omega
    subst hkK
    simp [roundLoop, specRoundTraceFrom]
  | succ fuel ih =>
    intro k hk hfuel
    by_cases hkK : k = K
    · have hcr : ¬ (canRound rates data (rates.map fun r => r * k) = true) := by
        intro hc
        rcases hK2 with ⟨i, hi, hilen⟩
        have h1 := (canRound_eq_true_iff rates data _).1 hc i hi
        rw [getD_map_mul] at h1
        rw [Nat.mul_succ] at hilen
        rw [hkK] at h1
        omega
      rw [roundLoop]
      rw [if_neg hcr]
      have hk0 : K - k = 0 := by omega
      rw [hk0, hkK]
      simp [specRoundTraceFrom]
    · have hklt : k < K := by omega
      have hcr : canRound rates data (rates.map fun r => r * k) = true := by
        rw [canRound_eq_true_iff]
        intro i hi
        rw [getD_map_mul]
        have h1 := hK1 i hi
        have h2 : rates.getD i 0 * (k + 1) ≤ rates.getD i 0 * K :=
          Nat.mul_le_mul_left _ (by omega)
        rw [Nat.mul_succ] at h2
        omega
      rw [roundLoop]
      rw [if_pos hcr]
      rw [zipWith_add_map_mul]
      rw [ih (k + 1) (by omega) (by omega)]
      rw [roundWrites_at]
      have hsplit : specRoundTraceFrom rates data k (K - k)
          = ((List.range data.length).map fun i =>
              (i, ((data.getD i []).drop (rates.getD i 0 * k)).take (rates.getD i 0)))
            ++ specRoundTraceFrom rates data (k + 1) (K - (k + 1)) := by
        have hKk : K - k = (K - (k + 1)) + 1 := by omega
        rw [hKk]
        unfold specRoundTraceFrom
        rw [List.range'_succ, List.flatMap_cons]
      rw [hsplit]

/-- The loop as invoked by `writeSamples` (all-zero cursors, canonical fuel)
emits exactly the `K` rounds and stops with the cursors of round `K`. -/
theorem roundLoop_init (rates : List Nat) (data : List (List Int)) (K : Nat)
    (hlen : data.length = rates.length)
    (hK1 : ∀ i < data.length, rates.getD i 0 * K ≤ (data.getD i []).length)
    (hK2 : ∃ i, i < data.length ∧
      (data.getD i []).length < rates.getD i 0 * (K + 1)) :
    roundLoop rates data (wsFuel data) (List.replicate data.length 0)
      = (specRoundTrace rates data K, rates.map fun r => r * K) := by
  have h0 : List.replicate data.length 0 = rates.map fun r => r * 0 := by
    rw [hlen]
    exact replicate_zero_eq_map_mul rates
  have hfuel : K ≤ wsFuel data := by
    rcases hK2 with ⟨i, hi, hilen⟩
    have hr : 0 < rates.getD i 0 := by
      rcases Nat.eq_zero_or_pos (rates.getD i 0) with h | h
      · rw [h] at hilen
        simp at hilen
      · exact h
    have h1 : rates.getD i 0 * K ≤ (data.getD i []).length := hK1 i hi
    have h2 : K ≤ rates.getD i 0 * K := Nat.le_mul_of_pos_left K hr
    have h3 : (data.getD i []).length ≤ (data.map List.length).sum := by
      refine List.single_le_sum (fun x _ => Nat.zero_le x) _ ?_
      rw [List.getD_eq_getElem data [] hi]
      exact List.mem_map_of_mem List.length (List.getElem_mem hi)
    unfold wsFuel
    omega
  rw [h0]
  have h := roundLoop_spec rates data K hK1 hK2 (wsFuel data) 0
    (Nat.zero_le K) (by omega)
  simpa [specRoundTrace] using h

/-- Unconditional characterization of the final-record loop over any index
list and any cursors: the loop visits indices in order and aborts with the
broadcast `ValueError` at the first index whose remainder past the cursor
exceeds its rate; among the indices before that point, one with a positive
remainder emits its remaining samples zero-padded to the record length, one
with zero remainder (cursor at or past the end) emits nothing. -/
theorem lastRecordsLoop_chars (rates : List Nat) (data : List (List Int))
    (ind : List Nat) :
    ∀ is : List Nat,
      lastRecordsLoop rates data ind is
        = ((is.takeWhile fun i =>
              (data.getD i []).length - ind.getD i 0 ≤ rates.getD i 0).filterMap
            fun i =>
              if (data.getD i []).length - ind.getD i 0 = 0 then none
              else some (i, (data.getD i []).drop (ind.getD i 0)
                ++ List.replicate
                    (rates.getD i 0 - ((data.getD i []).length - ind.getD i 0))
                    (0 : Int)),
          if (is.dropWhile fun i =>
              (data.getD i []).length - ind.getD i 0 ≤ rates.getD i 0) = []
          then none else some PyError.valueError) := by
  intro is
  induction is with
  | nil => rfl
  | cons i rest ih =>
    by_cases hp : (data.getD i []).length - ind.getD i 0 ≤ rates.getD i 0
    · rw [List.takeWhile_cons_of_pos (by simpa using hp),
          List.dropWhile_cons_of_pos (by simpa using hp)]
      by_cases h1 : (0 : Int) < ((data.getD i []).length : Int)
          - (ind.getD i 0 : Int)
      · have h2 : (((data.getD i []).length : Int) - (ind.getD i 0 : Int))
            ≤ (rates.getD i 0 : Int) := by omega
        have htn : (((data.getD i []).length : Int)
            - (ind.getD i 0 : Int)).toNat
            = (data.getD i []).length - ind.getD i 0 :=
          Int.toNat_sub (data.getD i []).length (ind.getD i 0)
        have hdrop : (data.getD i []).length
            - ((data.getD i []).length - ind.getD i 0) = ind.getD i 0 := by
          omega
        simp only [lastRecordsLoop, if_pos h1, if_pos h2]
        rw [ih, htn, hdrop]
        rw [List.filterMap_cons]
        rw [if_neg (by omega : ¬ ((data.getD i []).length - ind.getD i 0 = 0))]
      · simp only [lastRecordsLoop, if_neg h1]
        rw [ih]
        rw [List.filterMap_cons]
        rw [if_pos (by omega : (data.getD i []).length - ind.getD i 0 = 0)]
    · have h1 : (0 : Int) < ((data.getD i []).length : Int)
          - (ind.getD i 0 : Int) := by omega
      have h2 : ¬ ((((data.getD i []).length : Int) - (ind.getD i 0 : Int))
          ≤ (rates.getD i 0 : Int)) := by omega
      rw [List.takeWhile_cons_of_neg (by simpa using hp),
          List.dropWhile_cons_of_neg (by simpa using hp)]
      simp only [lastRecordsLoop, if_pos h1, if_neg h2]
      rw [List.filterMap_nil]
      rw [if_neg (List.cons_ne_nil i rest)]

/-- C2: with `K` pinned as the exact number of full rounds that fit (every
channel holds `rate_i * K` samples, some channel cannot supply round `K + 1`),
the `writeSamples` loop emits exactly `K` full rounds of single-channel
writes in channel order `0, ..., n-1`, each round advancing every channel's
cursor by its own sample rate, and stops with the cursors of round `K`; the
`writeSamples` trace starts with exactly these rounds. -/
theorem writeSamples_roundRobin (rates : List Nat) (data : List (List Int))
    (K : Nat)
    (hlen : data.length = rates.length)
    (hK1 : ∀ i < data.length, rates.getD i 0 * K ≤ (data.getD i []).length)
    (hK2 : ∃ i, i < data.length ∧
      (data.getD i []).length < rates.getD i 0 * (K + 1)) :
    roundLoop rates data (wsFuel data) (List.replicate data.length 0)
      = (specRoundTrace rates data K, rates.map fun r => r * K)
    ∧ (writeSamples rates data).1
      = specRoundTrace rates data K
        ++ (lastRecordsLoop rates data (rates.map fun r => r * K)
            (List.range data.length)).1 := by
  have h := roundLoop_init rates data K hlen hK1 hK2
  refine ⟨h, ?_⟩
  unfold writeSamples
  rw [if_neg (by omega)]
  dsimp only
  rw [h]

/-- C2 witness: three channels of rate 2 and length 5 admit exactly two full
rounds. -/
theorem writeSamples_roundRobin_witness :
    roundLoop [2, 2, 2] [[1,2,3,4,5],[6,7,8,9,10],[11,12,13,14,15]]
        (wsFuel [[1,2,3,4,5],[6,7,8,9,10],[11,12,13,14,15]])
        (List.replicate 3 0)
      = (specRoundTrace [2, 2, 2] [[1,2,3,4,5],[6,7,8,9,10],[11,12,13,14,15]] 2,
         [4, 4, 4])
    ∧ (writeSamples [2, 2, 2] [[1,2,3,4,5],[6,7,8,9,10],[11,12,13,14,15]]).1
      = specRoundTrace [2, 2, 2] [[1,2,3,4,5],[6,7,8,9,10],[11,12,13,14,15]] 2
        ++ (lastRecordsLoop [2, 2, 2] [[1,2,3,4,5],[6,7,8,9,10],[11,12,13,14,15]]
            [4, 4, 4] (List.range 3)).1 :=
  writeSamples_roundRobin [2, 2, 2] [[1,2,3,4,5],[6,7,8,9,10],[11,12,13,14,15]] 2
    (by decide) (by decide) ⟨0, by decide, by decide⟩

/-- C1 amended: after the loop stops (with `K` pinned as in C2), the final
phase visits channels in order `0, ..., n-1` and aborts with the numpy
broadcast error at the first channel whose remainder exceeds its sample rate
(that channel and all later ones emit nothing); each reached channel with a
positive remainder emits exactly one final record of length `sample_rate[i]`
holding its remaining samples zero-padded on the right, and each reached
channel with zero remainder emits no final record.  This holds with no
restriction on the remainders. -/
theorem writeSamples_final_records (rates : List Nat) (data : List (List Int))
    (K : Nat)
    (hlen : data.length = rates.length)
    (hK1 : ∀ i < data.length, rates.getD i 0 * K ≤ (data.getD i []).length)
    (hK2 : ∃ i, i < data.length ∧
      (data.getD i []).length < rates.getD i 0 * (K + 1)) :
    writeSamples rates data
      = (specRoundTrace rates data K ++ specFinalTrace rates data K,
         specFinalOutcome rates data K) := by
  unfold writeSamples
  rw [if_neg (by omega)]
  dsimp only
  rw [roundLoop_init rates data K hlen hK1 hK2]
  dsimp only
  rw [lastRecordsLoop_chars rates data (rates.map fun r => r * K)
    (List.range data.length)]
  simp only [getD_map_mul]
  rfl

/-- C1 amended witness, in the mixed-rate regime where the final phase
aborts: rates `[3, 2]`, lengths `[12, 5]`, two rounds; channel 0 has
remainder 6 > 3, so the final phase raises the broadcast error at channel 0
and channel 1 (remainder 1) gets no final record either. -/
theorem writeSamples_final_records_witness :
    writeSamples [3, 2] [[1, 2, 3, 4, 5, 6, 7, 8, 9, 10, 11, 12], [1, 2, 3, 4, 5]]
      = ([(0, [1, 2, 3]), (1, [1, 2]), (0, [4, 5, 6]), (1, [3, 4])],
         some PyError.valueError) := by
  have h := writeSamples_final_records [3, 2]
    [[1, 2, 3, 4, 5, 6, 7, 8, 9, 10, 11, 12], [1, 2, 3, 4, 5]] 2
    (by decide) (by decide) ⟨1, by decide, by decide⟩
  rw [h]
  decide

/-- Every buffer the round-robin loop passes to `write_physical_samples` has
the length of its channel's sample rate (the loop guard guarantees a full
slice). -/
theorem roundLoop_buffer_len (rates : List Nat) (data : List (List Int)) :
    ∀ fuel ind, ∀ e ∈ (roundLoop rates data fuel ind).1,
      e.2.length = rates.getD e.1 0 := by
  intro fuel
  induction fuel with
  | zero => intro ind e he; simp [roundLoop] at he
  | succ fuel ih =>
    intro ind e he
    simp only [roundLoop] at he
    by_cases hcr : canRound rates data ind = true
    · rw [if_pos hcr] at he
      rw [List.mem_append] at he
      rcases he with he | he
      · unfold roundWrites at he
        rw [List.mem_map] at he
        rcases he with ⟨i, hi, hei⟩
        rw [List.mem_range] at hi
        have hb := (canRound_eq_true_iff rates data ind).1 hcr i hi
        cases hei
        dsimp only
        rw [List.length_take, List.length_drop]
        omega
      · exact ih _ e he
    · rw [if_neg hcr] at he
      simp at he

/-- Every buffer the final-record loop passes to `write_physical_samples` has
the length of its channel's sample rate (`np.zeros(rate)` has length `rate`,
and an overflowing remainder errors out instead of writing). -/
theorem lastRecords_buffer_len (rates : List Nat) (data : List (List Int))
    (ind : List Nat) :
    ∀ is, ∀ e ∈ (lastRecordsLoop rates data ind is).1,
      e.2.length = rates.getD e.1 0 := by
  intro is
  induction is with
  | nil => intro e he; simp [lastRecordsLoop] at he
  | cons i rest ih =>
    intro e he
    simp only [lastRecordsLoop] at he
    by_cases h1 : (0 : Int) < ((data.getD i []).length : Int)
        - (ind.getD i 0 : Int)
    · rw [if_pos h1] at he
      by_cases h2 : ((data.getD i []).length : Int) - (ind.getD i 0 : Int)
          ≤ (rates.getD i 0 : Int)
      · rw [if_pos h2] at he
        rw [List.mem_cons] at he
        rcases he with he | he
        · subst he
          dsimp only
          rw [List.length_append, List.length_drop, List.length_replicate]
          omega
        · exact ih e he
      · rw [if_neg h2] at he
        simp at he
    · rw [if_neg h1] at he
      exact ih e he

/-- C10: every buffer `writeSamples` passes to the single-channel write has
length exactly the sample rate of the channel it is written for — both the
round-robin slices and the zero-padded final records. -/
theorem writeSamples_buffer_lengths (rates : List Nat) (data : List (List Int)) :
    ∀ e ∈ (writeSamples rates data).1, e.2.length = rates.getD e.1 0 := by
  intro e he
  unfold writeSamples at he
  by_cases h : data.length ≠ rates.length
  · rw [if_pos h] at he
    simp at he
  · rw [if_neg h] at he
    dsimp only at he
    rw [List.mem_append] at he
    rcases he with he | he
    · exact roundLoop_buffer_len rates data _ _ e he
    · exact lastRecords_buffer_len rates data _ _ e he

/-- C10 witness: the first buffer of the `[2, 2]` example has length 2. -/
theorem writeSamples_buffer_lengths_witness :
    (([1, 2] : List Int)).length = [2, 2].getD 0 0 :=
  writeSamples_buffer_lengths [2, 2] [[1, 2, 3], [4, 5, 6]]
    ((0 : Nat), ([1, 2] : List Int)) (by decide)

/-- Concrete quantization: `np.round(1.23456 * 10000) = 12346`. -/
theorem np_round_onset_example : np_round ((1.23456 : ℚ) * 10000) = 12346 := by
  have hq : (1.23456 : ℚ) * 10000 = 61728 / 5 := by norm_num
  have hf : ⌊(61728 / 5 : ℚ)⌋ = 12345 := by
    rw [Int.floor_eq_iff]
    constructor <;> norm_num
  unfold np_round
  rw [hq, hf]
  rw [if_neg (by norm_num), if_pos (by norm_num)]
  norm_num

/-- Concrete quantization: `np.round(0.5 * 10000) = 5000`. -/
theorem np_round_duration_example : np_round ((0.5 : ℚ) * 10000) = 5000 := by
  have hq : (0.5 : ℚ) * 10000 = 5000 := by norm_num
  have hf : ⌊(5000 : ℚ)⌋ = 5000 := by
    rw [Int.floor_eq_iff]
    constructor <;> norm_num
  unfold np_round
  rw [hq, hf]
  rw [if_pos (by norm_num)]

/-- C5: `writeAnnotation` quantizes the onset to `round(onset * 10000)` ticks
in every branch; a nonnegative duration is quantized to
`round(duration * 10000)` ticks, a negative duration encodes the sentinel
`-1`; in particular onset `1.23456` gives `12346` ticks and duration `0.5`
gives `5000` ticks. -/
theorem annTicks_quantization :
    (∀ o d : ℚ, ∀ fmt : String,
      (annTicks o d fmt).onset_ticks = np_round (o * 10000))
    ∧ (∀ o d : ℚ, ∀ fmt : String, 0 ≤ d →
      (annTicks o d fmt).duration_ticks = np_round (d * 10000))
    ∧ (∀ o d : ℚ, ∀ fmt : String, d < 0 →
      (annTicks o d fmt).duration_ticks = -1)
    ∧ annTicks 1.23456 (-1) "utf-8" = ⟨12346, -1, AnnEnc.utf8⟩
    ∧ (annTicks 1.23456 0.5 "utf-8").duration_ticks = 5000 := by
  refine ⟨?_, ?_, ?_, ?_, ?_⟩
  · intro o d fmt
    unfold annTicks
    by_cases hf : fmt = "utf-8" <;> by_cases hd : 0 ≤ d <;> simp [hf, hd]
  · intro o d fmt hd
    unfold annTicks
    by_cases hf : fmt = "utf-8" <;> simp [hf, hd]
  · intro o d fmt hd
    have hd2 : ¬ (0 ≤ d) := not_le.mpr hd
    unfold annTicks
    by_cases hf : fmt = "utf-8" <;> simp [hf, hd2]
  · unfold annTicks
    rw [if_pos rfl, if_neg (by norm_num : ¬ ((0 : ℚ) ≤ -1))]
    rw [np_round_onset_example]
  · unfold annTicks
    rw [if_pos rfl, if_pos (by norm_num : (0 : ℚ) ≤ 0.5)]
    exact np_round_duration_example

/-- C5 witness: a negative duration encodes the sentinel. -/
theorem annTicks_quantization_witness :
    (annTicks 2 (-1) "latin1").duration_ticks = -1 :=
  annTicks_quantization.2.2.1 2 (-1) "latin1" (by norm_num)
